import Mathlib

/-!
Verification of the FlashCard backend gateway (`backEnd/app.py`).

The development shallowly embeds the Flask request handlers as pure Lean
functions over a JSON value model and an explicit model of the remote
Supabase table (a list of `{cardid, data}` rows).  Python exceptions are
modelled with `Except`, and each handler returns its HTTP response
(body and status code) together with the resulting store state.
-/

set_option autoImplicit false

/-- A model of JSON values as delivered by Flask's `request.json` and by
`response.json()`.  Numbers are modelled as integers; no behaviour under
study depends on non-integral numbers. -/
inductive Json where
  | null
  | bool (b : Bool)
  | num (n : Int)
  | str (s : String)
  | arr (elems : List Json)
  | obj (entries : List (String × Json))
deriving Repr

mutual

/-- Structural equality test on Json values. -/
def Json.beq : Json → Json → Bool
  | .null, .null => true
  | .bool a, .bool b => a == b
  | .num a, .num b => a == b
  | .str a, .str b => a == b
  | .arr xs, .arr ys => Json.beqList xs ys
  | .obj es, .obj fs => Json.beqEntries es fs
  | _, _ => false

/-- Structural equality test on Json lists. -/
def Json.beqList : List Json → List Json → Bool
  | [], [] => true
  | x :: xs, y :: ys => Json.beq x y && Json.beqList xs ys
  | _, _ => false

/-- Structural equality test on Json object entry lists. -/
def Json.beqEntries : List (String × Json) → List (String × Json) → Bool
  | [], [] => true
  | (k, v) :: es, (l, w) :: fs => k == l && Json.beq v w && Json.beqEntries es fs
  | _, _ => false

end

mutual

/-- `Json.beq` decides equality of Json values. -/
theorem Json.beq_iff : ∀ (a b : Json), Json.beq a b = true ↔ a = b
  | .null, .null => by simp [Json.beq]
  | .bool a, .bool b => by simp [Json.beq]
  | .num a, .num b => by simp [Json.beq]
  | .str a, .str b => by simp [Json.beq]
  | .arr xs, .arr ys => by simp [Json.beq, Json.beqList_iff xs ys]
  | .obj es, .obj fs => by simp [Json.beq, Json.beqEntries_iff es fs]
  | .null, .bool _ | .null, .num _ | .null, .str _ | .null, .arr _ | .null, .obj _
  | .bool _, .null | .bool _, .num _ | .bool _, .str _ | .bool _, .arr _ | .bool _, .obj _
  | .num _, .null | .num _, .bool _ | .num _, .str _ | .num _, .arr _ | .num _, .obj _
  | .str _, .null | .str _, .bool _ | .str _, .num _ | .str _, .arr _ | .str _, .obj _
  | .arr _, .null | .arr _, .bool _ | .arr _, .num _ | .arr _, .str _ | .arr _, .obj _
  | .obj _, .null | .obj _, .bool _ | .obj _, .num _ | .obj _, .str _ | .obj _, .arr _ => by
      simp [Json.beq]

/-- `Json.beqList` decides equality of Json lists. -/
theorem Json.beqList_iff : ∀ (xs ys : List Json), Json.beqList xs ys = true ↔ xs = ys
  | [], [] => by simp [Json.beqList]
  | x :: xs, y :: ys => by
      simp [Json.beqList, Json.beq_iff x y, Json.beqList_iff xs ys]
  | [], _ :: _ => by simp [Json.beqList]
  | _ :: _, [] => by simp [Json.beqList]

/-- `Json.beqEntries` decides equality of Json object entry lists. -/
theorem Json.beqEntries_iff :
    ∀ (es fs : List (String × Json)), Json.beqEntries es fs = true ↔ es = fs
  | [], [] => by simp [Json.beqEntries]
  | (k, v) :: es, (l, w) :: fs => by
      simp [Json.beqEntries, Json.beq_iff v w, Json.beqEntries_iff es fs, and_assoc]
  | [], _ :: _ => by simp [Json.beqEntries]
  | _ :: _, [] => by simp [Json.beqEntries]

end

instance : DecidableEq Json := fun a b =>
  decidable_of_iff (Json.beq a b = true) (Json.beq_iff a b)

/-- Key lookup in a Python dict, modelled as first match in the entry list
(entries of a genuine Python dict have pairwise distinct keys). -/
def lookupKey : List (String × Json) → String → Option Json
  | [], _ => none
  | (k, v) :: rest, key => if k = key then some v else lookupKey rest key

/-- Membership test for a key of a Python dict (`k in d`). -/
def hasKey (entries : List (String × Json)) (key : String) : Bool :=
  (lookupKey entries key).isSome

/-- `d[k] = v` on a Python dict: overwrite the value at an existing key in
place, otherwise append the new binding at the end. -/
def setKey (entries : List (String × Json)) (key : String) (v : Json) :
    List (String × Json) :=
  if hasKey entries key then
    entries.map (fun p => if p.1 = key then (p.1, v) else p)
  else
    entries ++ [(key, v)]

/-- `d.pop(k, None)` on a Python dict: remove the binding at the key. -/
def removeKey (entries : List (String × Json)) (key : String) :
    List (String × Json) :=
  entries.filter (fun p => p.1 ≠ key)

/-- `d.get(k)` on an arbitrary Json value: `none` models Python's
`AttributeError` when the receiver is not a dict, `some j` the returned
value with `Json.null` standing for Python's `None` on a missing key. -/
def dictGet : Json → String → Option Json
  | Json.obj entries, key => some ((lookupKey entries key).getD Json.null)
  | _, _ => none

/-- Truthiness of a Python value (`if not x`). -/
def pyFalsy : Json → Bool
  | Json.null => true
  | Json.bool b => !b
  | Json.num n => n == 0
  | Json.str s => s.isEmpty
  | Json.arr xs => xs.isEmpty
  | Json.obj es => es.isEmpty

/-- Whether a Json value is a Python list (`isinstance(x, list)`). -/
def Json.isArr : Json → Bool
  | Json.arr _ => true
  | _ => false

/-- Whether a Json value is a Python dict. -/
def Json.isObj : Json → Bool
  | Json.obj _ => true
  | _ => false

/-- Splitting a character list at underscores, the model of Python's
`str.split('_')` (which never returns an empty list). -/
def splitOnUS : List Char → List (List Char)
  | [] => [[]]
  | c :: rest =>
    if c = '_' then [] :: splitOnUS rest
    else
      match splitOnUS rest with
      | seg :: segs => (c :: seg) :: segs
      | [] => [[c]]

/-- The last underscore-separated segment of a string (`s.split('_')[-1]`). -/
def lastSegment (s : String) : List Char :=
  (splitOnUS s.data).getLastD []

/-- `s.startswith(p)` on Python strings. -/
def pyStartsWith (s p : String) : Bool :=
  p.data.isPrefixOf s.data

/-- Value of a decimal digit character. -/
def digitVal (c : Char) : Nat :=
  c.toNat - '0'.toNat

/-- Decimal evaluation of a digit-character list. -/
def decValue (ds : List Char) : Nat :=
  ds.foldl (fun acc c => 10 * acc + digitVal c) 0

/-- The characters Python's `str.isspace` (and hence the stripping done
by `int()`) treats as whitespace: ASCII whitespace and separators plus
the Unicode space characters. -/
def pyIsSpace (c : Char) : Bool :=
  (0x09 ≤ c.toNat && c.toNat ≤ 0x0D) || c.toNat == 0x20 ||
  (0x1C ≤ c.toNat && c.toNat ≤ 0x1F) || c.toNat == 0x85 || c.toNat == 0xA0 ||
  c.toNat == 0x1680 || (0x2000 ≤ c.toNat && c.toNat ≤ 0x200A) ||
  c.toNat == 0x2028 || c.toNat == 0x2029 || c.toNat == 0x202F ||
  c.toNat == 0x205F || c.toNat == 0x3000

/-- The starting codepoints of the ten-character Unicode Nd decimal-digit
blocks outside ASCII (each block runs from its start to start + 9 with
values 0–9 in order); Python's `int()` accepts any of these digits. -/
def ndBlockStarts : List Nat :=
  [0x660, 0x6F0, 0x7C0, 0x966, 0x9E6, 0xA66, 0xAE6, 0xB66, 0xBE6, 0xC66,
   0xCE6, 0xD66, 0xDE6, 0xE50, 0xED0, 0xF20, 0x1040, 0x1090, 0x17E0,
   0x1810, 0x1946, 0x19D0, 0x1A80, 0x1A90, 0x1B50, 0x1BB0, 0x1C40,
   0x1C50, 0xA620, 0xA8D0, 0xA900, 0xA9D0, 0xA9F0, 0xAA50, 0xABF0,
   0xFF10, 0x104A0, 0x10D30, 0x11066, 0x110F0, 0x11136, 0x111D0,
   0x112F0, 0x11450, 0x114D0, 0x11650, 0x116C0, 0x11730, 0x118E0,
   0x11950, 0x11C50, 0x11D50, 0x11DA0, 0x11F50, 0x16A60, 0x16AC0,
   0x16B50, 0x1E140, 0x1E2F0, 0x1E4F0, 0x1E950, 0x1FBF0]

/-- The decimal value of a character as Python's `int()` sees it: ASCII
digits, the Unicode Nd blocks, and the contiguous mathematical digit
range; `none` for everything else. -/
def pyDigitVal (c : Char) : Option Nat :=
  if c.isDigit then some (digitVal c)
  else
    match ndBlockStarts.find? (fun s => s ≤ c.toNat && c.toNat ≤ s + 9) with
    | some s => some (c.toNat - s)
    | none =>
      if 0x1D7CE ≤ c.toNat && c.toNat ≤ 0x1D7FF then
        some ((c.toNat - 0x1D7CE) % 10)
      else none

/-- Decimal evaluation of a digit-character list under Python's digit
values. -/
def decValuePy (ds : List Char) : Nat :=
  ds.foldl (fun acc c => 10 * acc + (pyDigitVal c).getD 0) 0

/-- Core of Python's `int(s)` on a sign-free character list: every
character must carry a decimal-digit value and at least one must be
present. -/
def parseDigits (ds : List Char) : Option Int :=
  if ds ≠ [] ∧ ds.all (fun c => (pyDigitVal c).isSome) then
    some (decValuePy ds)
  else none

/-- Python's `int(s)` on a whitespace-trimmed character list: an optional
sign followed by at least one decimal digit (the strings this model is
applied to are underscore-free segments, where `int` accepts nothing else). -/
def parseSigned : List Char → Option Int
  | '+' :: rest => parseDigits rest
  | '-' :: rest => (parseDigits rest).map (fun n => -n)
  | ds => parseDigits ds

/-- Python's `int(s)` on a character list, including the surrounding
whitespace stripping that `int` performs. -/
def parseIntPy (ds : List Char) : Option Int :=
  parseSigned ((ds.dropWhile pyIsSpace).reverse.dropWhile pyIsSpace).reverse

/-- Decimal digit character of a value below ten. -/
def digitOf (n : Nat) : Char :=
  Char.ofNat ('0'.toNat + n)

/-- Decimal rendering of a natural number with an explicit fuel argument;
structural recursion keeps the function computable by the kernel. -/
def natReprAux : Nat → Nat → List Char
  | 0, n => [digitOf n]
  | fuel + 1, n =>
    if n < 10 then [digitOf n]
    else natReprAux fuel (n / 10) ++ [digitOf (n % 10)]

/-- Decimal rendering of a natural number, the model of Python's
`str(n)` / f-string formatting for the non-negative case (the fuel `n`
suffices because the argument strictly shrinks on division by ten). -/
def natRepr (n : Nat) : List Char :=
  natReprAux n n

/-- Decimal rendering of an integer (`f"...{next_number}"`). -/
def intRepr (n : Int) : String :=
  if n < 0 then String.mk ('-' :: natRepr n.natAbs) else String.mk (natRepr n.natAbs)

/-- Modelled from the spec: `config.py` is not part of the repository; the
spec fixes the static module lookup to the modules "mod1" and "mod2", each
mapped to exactly one remote table name. -/
def MODULE_TO_TABLE : String → Option String
  | "mod1" => some "mod1_cards"
  | "mod2" => some "mod2_cards"
  | _ => none

/-- A stored row of a module's remote table: the `cardid` key column and
the `data` JSON column.  The id is a Json value because the handlers store
`card.get('cardid')`, which can be `None` or any JSON value. -/
structure Row where
  cardid : Json
  data : Json
deriving Repr, DecidableEq

instance : BEq Json := ⟨Json.beq⟩

instance : LawfulBEq Json where
  eq_of_beq h := (Json.beq_iff _ _).1 h
  rfl := (Json.beq_iff _ _).2 rfl

/-- The remote table of a module, in the remote's natural order. -/
abbrev Store := List Row

/-- The JSON shape in which the remote store returns a row selected or
represented with its `cardid` and `data` columns. -/
def rowJson (r : Row) : Json :=
  Json.obj [("cardid", r.cardid), ("data", r.data)]

/-- Modelled from the spec: bulk insert with upsert-on-id semantics
(`on_conflict=cardid`) — a row replaces the existing row carrying its id,
or is appended. -/
def storeUpsertOne (store : Store) (r : Row) : Store :=
  if store.any (fun x => x.cardid == r.cardid) then
    store.map (fun x => if x.cardid == r.cardid then r else x)
  else store ++ [r]

/-- Modelled from the spec: bulk upsert of a row list, row by row. -/
def storeUpsertAll (store : Store) (rows : List Row) : Store :=
  rows.foldl storeUpsertOne store

/-- An HTTP response of the remote store as seen by `supabase_fetch`:
status information and the decoded JSON body, `none` when the body is not
valid JSON. -/
structure HttpResponse where
  ok : Bool
  statusCode : Nat
  bodyJson : Option Json
deriving Repr

/-- `supabase_fetch`: an unresolvable module raises ValueError, a non-ok
remote status raises an API error, and an ok status whose body fails JSON
decoding yields the empty list. -/
def supabase_fetch (moduleResolvable : Bool) (resp : HttpResponse) :
    Except String Json :=
  if !moduleResolvable then Except.error "ValueError: unknown module"
  else if !resp.ok then Except.error "Supabase API Error"
  else
    match resp.bodyJson with
    | some j => Except.ok j
    | none => Except.ok (Json.arr [])

/-- Python iteration (`for x in j`): lists yield their elements, dicts
their keys, strings their characters; other values raise TypeError. -/
def pyIterate : Json → Except String (List Json)
  | Json.arr xs => Except.ok xs
  | Json.obj es => Except.ok (es.map (fun p => Json.str p.1))
  | Json.str s => Except.ok (s.data.map (fun c => Json.str (String.mk [c])))
  | _ => Except.error "TypeError: not iterable"

/-- The reshaping `{**record['data'], 'cardid': record['cardid']}`: spread
of a non-dict `data` raises TypeError. -/
def mergeInject (dataVal cardidVal : Json) : Except String Json :=
  match dataVal with
  | Json.obj entries => Except.ok (Json.obj (setKey entries "cardid" cardidVal))
  | _ => Except.error "TypeError: not a mapping"

/-- Whether `transform_from_supabase` keeps a record: it must be a dict
holding both a `cardid` and a `data` key. -/
def recordKeep : Json → Bool
  | Json.obj entries => hasKey entries "cardid" && hasKey entries "data"
  | _ => false

/-- Subscripting a kept record (`record['data']`, key known present). -/
def recordField (record : Json) (k : String) : Json :=
  match record with
  | Json.obj entries => (lookupKey entries k).getD Json.null
  | _ => Json.null

/-- The record loop of `transform_from_supabase`. -/
def transformLoop : List Json → Except String (List Json)
  | [] => Except.ok []
  | record :: rest =>
    if recordKeep record then
      match mergeInject (recordField record "data") (recordField record "cardid") with
      | Except.ok card => (transformLoop rest).map (fun cs => card :: cs)
      | Except.error e => Except.error e
    else transformLoop rest

/-- `transform_from_supabase`: reshape the records of a remote response
into the client-facing card list. -/
def transform_from_supabase (records : Json) : Except String (List Json) :=
  match pyIterate records with
  | Except.ok items => transformLoop items
  | Except.error e => Except.error e

/-- An HTTP response of a handler: JSON body and status code. -/
structure Response where
  body : Json
  status : Nat
deriving Repr, DecidableEq

/-- The generic `{"success": False, "error": e}` 500 response of the
handlers' exception branches. -/
def errorResponse (e : String) : Response :=
  Response.mk (Json.obj [("success", Json.bool false), ("error", Json.str e)]) 500

/-- Python `len(x)` for sized values; `none` models TypeError. -/
def pyLen : Json → Option Nat
  | Json.str s => some s.length
  | Json.arr xs => some xs.length
  | Json.obj es => some es.length
  | _ => none

/-- Python `x[0]` with an integer subscript. -/
def pyIndexZero : Json → Except String Json
  | Json.arr [] => Except.error "IndexError"
  | Json.arr (x :: _) => Except.ok x
  | Json.str s =>
    match s.data with
    | [] => Except.error "IndexError"
    | c :: _ => Except.ok (Json.str (String.mk [c]))
  | Json.obj _ => Except.error "KeyError: 0"
  | _ => Except.error "TypeError: not subscriptable"

/-- Python `x[k]` with a string subscript. -/
def pySubscript (j : Json) (k : String) : Except String Json :=
  match j with
  | Json.obj entries =>
    match lookupKey entries k with
    | some v => Except.ok v
    | none => Except.error "KeyError"
  | _ => Except.error "TypeError: not subscriptable"

/-- Handler GET /api/{module}/cards (`get_all_cards`): fetch every row's
`cardid` and `data` and reshape them; any exception becomes a 500 with an
`error` body. -/
def get_all_cards (module_id : String) (store : Store) : Response :=
  if (MODULE_TO_TABLE module_id).isNone then
    Response.mk (Json.obj [("error", Json.str "ValueError: unknown module")]) 500
  else
    match transform_from_supabase (Json.arr (store.map rowJson)) with
    | Except.ok cards => Response.mk (Json.arr cards) 200
    | Except.error e => Response.mk (Json.obj [("error", Json.str e)]) 500

/-- The id-scanning loop of `add_card` over the fetched `cardid` values:
ids starting with `{module}_card_` contribute the integer parsed from
their last underscore-separated segment; unparsable segments are skipped;
a non-string id raises AttributeError at `.startswith`. -/
def maxNumberLoop (module_id : String) (acc : Int) :
    List Json → Except String Int
  | [] => Except.ok acc
  | Json.str s :: rest =>
    if pyStartsWith s (module_id ++ "_card_") then
      match parseIntPy (lastSegment s) with
      | some n => maxNumberLoop module_id (max acc n) rest
      | none => maxNumberLoop module_id acc rest
    else maxNumberLoop module_id acc rest
  | _ :: _ => Except.error "AttributeError: startswith"

/-- Lines 177–182 of `add_card`: inspect the insert result, raise on an
empty or falsy result, and otherwise reshape `result[0]` into the created
card of the 201 response. -/
def add_card_respond (result : Json) : Response :=
  if pyFalsy result then errorResponse "Supabase insert returned no row"
  else
    match pyLen result with
    | none => errorResponse "TypeError: len"
    | some 0 => errorResponse "Supabase insert returned no row"
    | some (_ + 1) =>
      match
        (do
          let first ← pyIndexZero result
          let d ← pySubscript first "data"
          let cid ← pySubscript first "cardid"
          mergeInject d cid : Except String Json)
      with
      | Except.ok card =>
        Response.mk
          (Json.obj [("success", Json.bool true), ("card", card)]) 201
      | Except.error e => errorResponse e

/-- The insert step of `add_card`: the remote unique key on `cardid`
rejects a duplicate id (a non-ok response raised by `supabase_fetch`);
otherwise the row is appended and its representation returned. -/
def add_card_insert (cid : Json) (payload : Json) (store : Store) :
    Response × Store :=
  if store.any (fun x => x.cardid == cid) then
    (errorResponse "Supabase API Error: duplicate key", store)
  else
    (add_card_respond (Json.arr [rowJson (Row.mk cid payload)]),
     store ++ [Row.mk cid payload])

/-- Handler POST /api/{module}/cards (`add_card`): take the request body,
synthesize an id when the body carries none (or a falsy one), insert, and
report the created card or a 500 error. -/
def add_card (module_id : String) (body : Json) (store : Store) :
    Response × Store :=
  match body with
  | Json.obj entries =>
    if pyFalsy ((lookupKey entries "cardid").getD Json.null) then
      if (MODULE_TO_TABLE module_id).isNone then
        (errorResponse "ValueError: unknown module", store)
      else
        match maxNumberLoop module_id 0 (store.map (fun r => r.cardid)) with
        | Except.error e => (errorResponse e, store)
        | Except.ok m =>
          let newId := module_id ++ "_card_" ++ intRepr (m + 1)
          add_card_insert (Json.str newId)
            (Json.obj (setKey entries "cardid" (Json.str newId))) store
    else
      if (MODULE_TO_TABLE module_id).isNone then
        (errorResponse "ValueError: unknown module", store)
      else
        add_card_insert ((lookupKey entries "cardid").getD Json.null)
          (Json.obj entries) store
  | _ => (errorResponse "AttributeError: get", store)

/-- Lines 207–212 of `update_card`: a falsy PATCH result yields the 404
not-found response; otherwise the first reshaped row is returned with 200. -/
def update_card_respond (result : Json) : Response :=
  if pyFalsy result then
    Response.mk (Json.obj [("error", Json.str "card not found or update blocked")]) 404
  else
    match transform_from_supabase result with
    | Except.error e => errorResponse e
    | Except.ok [] => errorResponse "IndexError"
    | Except.ok (c :: _) =>
      Response.mk (Json.obj [("success", Json.bool true), ("card", c)]) 200

/-- Handler PUT /api/{module}/cards/{id} (`update_card`): pop `cardid`
from the payload, PATCH the `data` column of the rows whose id matches,
and reshape the first returned row. -/
def update_card (module_id card_id : String) (body : Json) (store : Store) :
    Response × Store :=
  match body with
  | Json.obj entries =>
    if (MODULE_TO_TABLE module_id).isNone then
      (errorResponse "ValueError: unknown module", store)
    else
      (update_card_respond
        (Json.arr
          (((store.filter (fun r => r.cardid == Json.str card_id)).map
            (fun r => Row.mk r.cardid (Json.obj (removeKey entries "cardid")))).map
              rowJson)),
       store.map (fun r =>
         if r.cardid == Json.str card_id then
           Row.mk r.cardid (Json.obj (removeKey entries "cardid"))
         else r))
  | _ => (errorResponse "AttributeError: pop", store)

/-- Handler DELETE /api/{module}/cards/{id} (`delete_card`): DELETE the
rows whose id matches and report success unconditionally. -/
def delete_card (module_id card_id : String) (store : Store) :
    Response × Store :=
  if (MODULE_TO_TABLE module_id).isNone then
    (errorResponse "ValueError: unknown module", store)
  else
    (Response.mk (Json.obj [("success", Json.bool true)]) 200,
     store.filter (fun r => !(r.cardid == Json.str card_id)))

/-- The `data_to_insert` comprehension shared by reset, import and
seeding: each card of the list becomes `{cardid: card.get('cardid'),
data: card}`; a non-dict card raises AttributeError. -/
def rowsLoop : List Json → Except String (List Row)
  | [] => Except.ok []
  | c :: rest =>
    match dictGet c "cardid" with
    | none => Except.error "AttributeError: get"
    | some cid => (rowsLoop rest).map (fun rs => Row.mk cid c :: rs)

/-- Building `data_to_insert` from a decoded JSON value, including the
Python iteration over it. -/
def cardsToRows (cards : Json) : Except String (List Row) :=
  match pyIterate cards with
  | Except.error e => Except.error e
  | Except.ok items => rowsLoop items

/-- Handler POST /api/{module}/reset (`reset_cards`): wipe the rows whose
id is not null, reload the fixture file (`none` models a missing or
unreadable file), and bulk-upsert its entries.  Failures after the wipe
leave the table wiped. -/
def reset_cards (module_id : String) (fixture : Option Json) (store : Store) :
    Response × Store :=
  if (MODULE_TO_TABLE module_id).isNone then
    (errorResponse "ValueError: unknown module", store)
  else
    match fixture with
    | none =>
      (errorResponse "FileNotFoundError",
       store.filter (fun r => r.cardid == Json.null))
    | some fx =>
      match cardsToRows fx with
      | Except.error e =>
        (errorResponse e, store.filter (fun r => r.cardid == Json.null))
      | Except.ok rows =>
        (Response.mk
          (Json.obj [("success", Json.bool true),
                     ("message", Json.str "module reset"),
                     ("count", Json.num rows.length)]) 200,
         if rows.isEmpty then store.filter (fun r => r.cardid == Json.null)
         else storeUpsertAll (store.filter (fun r => r.cardid == Json.null)) rows)

/-- Handler POST /api/{module}/import (`import_cards`): read `cards` from
the body, reject a non-list value with 400 before any remote call, then
wipe the non-null-id rows and bulk-upsert the submitted cards. -/
def import_cards (module_id : String) (body : Json) (store : Store) :
    Response × Store :=
  match dictGet body "cards" with
  | none => (errorResponse "AttributeError: get", store)
  | some cardsJson =>
    if !cardsJson.isArr then
      (Response.mk (Json.obj [("error", Json.str "import data must be a JSON array")]) 400,
       store)
    else if (MODULE_TO_TABLE module_id).isNone then
      (errorResponse "ValueError: unknown module", store)
    else
      match cardsToRows cardsJson with
      | Except.error e =>
        (errorResponse e, store.filter (fun r => r.cardid == Json.null))
      | Except.ok rows =>
        (Response.mk
          (Json.obj [("success", Json.bool true),
                     ("count", Json.num rows.length)]) 200,
         if rows.isEmpty then store.filter (fun r => r.cardid == Json.null)
         else storeUpsertAll (store.filter (fun r => r.cardid == Json.null)) rows)

/-- The seeding helper `initialize_data`: skip when the module is unknown,
when the table already holds a row, when the fixture file is missing, or
when any exception occurs while building the rows; otherwise bulk-upsert
the fixture entries. -/
def initialize_data (module_id : String) (fixture : Option Json) (store : Store) :
    Store :=
  if (MODULE_TO_TABLE module_id).isNone then store
  else if !store.isEmpty then store
  else
    match fixture with
    | none => store
    | some fx =>
      match cardsToRows fx with
      | Except.error _ => store
      | Except.ok rows =>
        if rows.isEmpty then store else storeUpsertAll store rows

/-- The literal reading of the spec sentence for C1: an id matches the
pattern only when it is exactly `{module}_card_` followed by a decimal
numeral, whose value is N. -/
def specSuffix (module_id id : String) : Option Nat :=
  if pyStartsWith id (module_id ++ "_card_") then
    if (id.data.drop (module_id ++ "_card_").data.length) ≠ [] ∧
       (id.data.drop (module_id ++ "_card_").data.length).all (·.isDigit) then
      some (decValue (id.data.drop (module_id ++ "_card_").data.length))
    else none
  else none

/-- The maximum N over the ids matching the spec's pattern, defaulting
to 0, as the spec words it. -/
def specMaxN (module_id : String) (ids : List String) : Nat :=
  ids.foldl
    (fun acc s =>
      match specSuffix module_id s with
      | some n => max acc n
      | none => acc) 0

/-- The id the spec says Create assigns when the body carries none. -/
def specAssignedId (module_id : String) (ids : List String) : String :=
  module_id ++ "_card_" ++ intRepr ((specMaxN module_id ids : Int) + 1)

/-- Whether a stored row's `data` mapping holds a `cardid` key. -/
def dataHasCardId : Json → Bool
  | Json.obj es => hasKey es "cardid"
  | _ => false

/-- The 400-check of `import_cards`, as a predicate on the request body:
true when the body carries no list under `cards` (including when the body
is not a dict at all, where `data.get` raises instead). -/
def importBodyRejected (body : Json) : Bool :=
  match dictGet body "cards" with
  | some cardsJson => !cardsJson.isArr
  | none => true

/-- The id a reset/import/seeding row receives from its source card. -/
def cardIdOf : Json → Json
  | Json.obj es => (lookupKey es "cardid").getD Json.null
  | _ => Json.null

/-- A well-formed fixture entry: a dict with pairwise-distinct keys that
carries a `cardid` key. -/
def fixtureCardOk : Json → Bool
  | Json.obj es => decide ((es.map Prod.fst).Nodup) && hasKey es "cardid"
  | _ => false

/-- The client-facing reshape of a stored row whose `data` is a dict. -/
def reshapeRow (r : Row) : Json :=
  match r.data with
  | Json.obj es => Json.obj (setKey es "cardid" r.cardid)
  | _ => Json.null

/-- The reshape of a kept record, as described by the amended C10 claim. -/
def specReshape (record : Json) : Json :=
  match recordField record "data" with
  | Json.obj es => Json.obj (setKey es "cardid" (recordField record "cardid"))
  | _ => Json.null

theorem lookupKey_removeKey (es : List (String × Json)) (k : String) :
    lookupKey (removeKey es k) k = none := by
  induction es with
  | nil => rfl
  | cons p rest ih =>
    by_cases h : p.1 = k
    · simpa [removeKey, List.filter_cons, h] using ih
    · simpa [removeKey, List.filter_cons, h, lookupKey] using ih

theorem hasKey_removeKey (es : List (String × Json)) (k : String) :
    hasKey (removeKey es k) k = false := by
  simp [hasKey, lookupKey_removeKey]

theorem lookupKey_setKey (es : List (String × Json)) (k : String) (v : Json) :
    lookupKey (setKey es k v) k = some v := by
  by_cases h : hasKey es k
  · simp only [setKey, h, if_true]
    induction es with
    | nil => simp [hasKey, lookupKey] at h
    | cons p rest ih =>
      obtain ⟨pk, pv⟩ := p
      by_cases hp : pk = k
      · subst hp
        have hhead : (if ((pk, pv) : String × Json).1 = pk then ((pk, pv).1, v) else (pk, pv)) =
            (pk, v) := by simp
        simp only [List.map_cons, hhead]
        simp [lookupKey]
      · simp only [List.map_cons, if_neg hp]
        rw [lookupKey, if_neg hp]
        exact ih (by simpa [hasKey, lookupKey, hp] using h)
  · simp only [setKey, h, if_false]
    induction es with
    | nil => simp [lookupKey]
    | cons p rest ih =>
      obtain ⟨pk, pv⟩ := p
      have hp : pk ≠ k := by
        intro hk
        exact absurd (by simp [hasKey, lookupKey, hk]) h
      rw [List.cons_append]
      simp only [lookupKey]
      rw [if_neg hp]
      exact ih (by simpa [hasKey, lookupKey, hp] using h)

theorem hasKey_setKey (es : List (String × Json)) (k : String) (v : Json) :
    hasKey (setKey es k v) k = true := by
  simp [hasKey, lookupKey_setKey]

theorem setKeyMap_id (es : List (String × Json)) (k : String) (v : Json)
    (habs : ∀ q ∈ es, q.1 ≠ k) :
    es.map (fun p => if p.1 = k then (p.1, v) else p) = es := by
  induction es with
  | nil => rfl
  | cons p rest ih =>
    have hp : p.1 ≠ k := habs p (List.mem_cons_self p rest)
    simp only [List.map_cons, if_neg hp]
    rw [ih (fun q hq => habs q (List.mem_cons_of_mem p hq))]

/-- Writing back the value a key already holds in a duplicate-free dict
leaves the dict unchanged. -/
theorem setKey_self (es : List (String × Json)) (k : String) (v : Json)
    (hnodup : (es.map Prod.fst).Nodup) (hv : lookupKey es k = some v) :
    setKey es k v = es := by
  have hk : hasKey es k = true := by simp [hasKey, hv]
  simp only [setKey, hk, if_true]
  induction es with
  | nil => rfl
  | cons p rest ih =>
    obtain ⟨pk, pv⟩ := p
    simp only [List.map_cons, List.nodup_cons] at hnodup
    by_cases hp : pk = k
    · have hvp : v = pv := by
        rw [lookupKey, if_pos hp] at hv
        exact (Option.some.inj hv).symm
      subst hvp
      have hrest : rest.map (fun q => if q.1 = k then (q.1, v) else q) = rest := by
        refine setKeyMap_id rest k v (fun q hq hqk => ?_)
        exact hnodup.1 (List.mem_map.mpr ⟨q, hq, by rw [hqk, hp]⟩)
      simp only [List.map_cons, if_pos hp, hrest]
    · rw [lookupKey, if_neg hp] at hv
      have hk2 : hasKey rest k = true := by simp [hasKey, hv]
      simp only [List.map_cons, if_neg hp]
      rw [ih hnodup.2 hv hk2]

/-- C7: for a resolvable module, Delete responds `{success: true}` with
status 200 for every store, whether or not a row with the id exists. -/
theorem C7_delete_success (module_id card_id : String) (store : Store)
    (hmod : (MODULE_TO_TABLE module_id).isSome = true) :
    (delete_card module_id card_id store).1 =
      Response.mk (Json.obj [("success", Json.bool true)]) 200 := by
  cases hopt : MODULE_TO_TABLE module_id with
  | none => rw [hopt] at hmod; simp at hmod
  | some t => simp [delete_card, hopt]

theorem C7_witness :
    (delete_card "mod1" "missing_id" [Row.mk (Json.str "k") (Json.obj [])]).1 =
      Response.mk (Json.obj [("success", Json.bool true)]) 200 :=
  C7_delete_success "mod1" "missing_id" [Row.mk (Json.str "k") (Json.obj [])]
    (by decide)

/-- C8: for a resolvable module, listing an empty remote row set responds
200 with the empty JSON array. -/
theorem C8_list_empty (module_id : String)
    (hmod : (MODULE_TO_TABLE module_id).isSome = true) :
    get_all_cards module_id [] = Response.mk (Json.arr []) 200 := by
  cases hopt : MODULE_TO_TABLE module_id with
  | none => rw [hopt] at hmod; simp at hmod
  | some t => simp [get_all_cards, hopt, transform_from_supabase, pyIterate, transformLoop]

theorem C8_witness : get_all_cards "mod1" [] = Response.mk (Json.arr []) 200 :=
  C8_list_empty "mod1" (by decide)

/-- C9: a success-status remote response whose body is not valid JSON
makes `supabase_fetch` return the empty list; on that result the Create
pipeline reports a 500 insertion error and the Update pipeline reports
404, although the remote operation succeeded. -/
theorem C9_nonjson_success_body (resp : HttpResponse)
    (hok : resp.ok = true) (hbody : resp.bodyJson = none) :
    supabase_fetch true resp = Except.ok (Json.arr []) ∧
    (add_card_respond (Json.arr [])).status = 500 ∧
    (update_card_respond (Json.arr [])).status = 404 := by
  refine ⟨?_, rfl, rfl⟩
  simp [supabase_fetch, hok, hbody]

theorem C9_witness :
    supabase_fetch true (HttpResponse.mk true 200 none) = Except.ok (Json.arr []) ∧
    (add_card_respond (Json.arr [])).status = 500 ∧
    (update_card_respond (Json.arr [])).status = 404 :=
  C9_nonjson_success_body (HttpResponse.mk true 200 none) rfl rfl

/-- C1 counterexample: with the single existing id `mod1_card_2_5` — which
does not match the pattern `mod1_card_{N}` — the claim predicts the new id
`mod1_card_1`, but the code parses 5 from the last underscore segment and
assigns `mod1_card_6`. -/
theorem C1_counterexample :
    (add_card "mod1" (Json.obj [("front", Json.str "q")])
        [Row.mk (Json.str "mod1_card_2_5") (Json.obj [])]).2 =
      [Row.mk (Json.str "mod1_card_2_5") (Json.obj []),
       Row.mk (Json.str "mod1_card_6")
         (Json.obj [("front", Json.str "q"), ("cardid", Json.str "mod1_card_6")])] ∧
    specAssignedId "mod1" ["mod1_card_2_5"] = "mod1_card_1" ∧
    ("mod1_card_6" : String) ≠ "mod1_card_1" := by
  refine ⟨by decide, by decide, by decide⟩

/-- C2 counterexample: a Create without a client id stores the synthesized
`cardid` inside the row's `data` mapping. -/
theorem C2_counterexample :
    (add_card "mod1" (Json.obj [("front", Json.str "a")]) []).2 =
      [Row.mk (Json.str "mod1_card_1")
        (Json.obj [("front", Json.str "a"), ("cardid", Json.str "mod1_card_1")])] ∧
    dataHasCardId (Json.obj [("front", Json.str "a"),
      ("cardid", Json.str "mod1_card_1")]) = true := by
  refine ⟨by decide, by decide⟩

/-- C4 counterexample: a body that is not even a JSON object (here the
number 5, which certainly does not supply an array of cards) raises
AttributeError at `data.get` and is answered with 500, not a 400-style
error; the store is untouched. -/
theorem C4_counterexample :
    (import_cards "mod1" (Json.num 5)
        [Row.mk (Json.str "k") (Json.obj [])]).1.status = 500 ∧
    (import_cards "mod1" (Json.num 5)
        [Row.mk (Json.str "k") (Json.obj [])]).2 =
      [Row.mk (Json.str "k") (Json.obj [])] := by
  refine ⟨by decide, by decide⟩

/-- C10 counterexample: a record that is a dict with both keys but whose
`data` value is not a dict makes the reshape raise TypeError instead of
being dropped, and List then fails with 500. -/
theorem C10_counterexample :
    transform_from_supabase
        (Json.arr [Json.obj [("cardid", Json.str "x"), ("data", Json.num 5)]]) =
      Except.error "TypeError: not a mapping" ∧
    (get_all_cards "mod1" [Row.mk (Json.str "x") (Json.num 5)]).status = 500 := by
  refine ⟨rfl, by decide⟩

theorem update_card_frame (module_id card_id : String) (body : Json)
    (store : Store) :
    ((update_card module_id card_id body store).2).map (fun r => r.cardid) =
      store.map (fun r => r.cardid) ∧
    ∀ r ∈ (update_card module_id card_id body store).2,
      r ∈ store ∨
        ∃ entries, body = Json.obj entries ∧
          r.data = Json.obj (removeKey entries "cardid") ∧
          hasKey (removeKey entries "cardid") "cardid" = false := by
  cases body with
  | obj entries =>
    by_cases hmod : (MODULE_TO_TABLE module_id).isNone = true
    · simp only [update_card, hmod, eq_self_iff_true, if_true]
      exact ⟨trivial, fun r hr => Or.inl hr⟩
    · rw [Bool.not_eq_true] at hmod
      simp only [update_card, hmod, Bool.false_eq_true, if_false]
      constructor
      · rw [List.map_map]
        refine List.map_congr_left (fun r hr => ?_)
        by_cases hc : (r.cardid == Json.str card_id) = true <;>
          simp [Function.comp, hc]
      · intro r hr
        obtain ⟨x, hx, hfx⟩ := List.mem_map.mp hr
        by_cases hc : (x.cardid == Json.str card_id) = true
        · rw [if_pos hc] at hfx
          exact Or.inr ⟨entries, rfl, by rw [← hfx], hasKey_removeKey entries "cardid"⟩
        · rw [if_neg hc] at hfx
          exact Or.inl (hfx ▸ hx)
  | null => exact ⟨rfl, fun r hr => Or.inl hr⟩
  | bool b => exact ⟨rfl, fun r hr => Or.inl hr⟩
  | num n => exact ⟨rfl, fun r hr => Or.inl hr⟩
  | str s => exact ⟨rfl, fun r hr => Or.inl hr⟩
  | arr xs => exact ⟨rfl, fun r hr => Or.inl hr⟩

/-- C4 (amended): a request whose body does not carry a list under the
`cards` key leaves the store unchanged; the response is the 400 client
error when the body is a JSON object, but a 500 (an uncaught
AttributeError at `data.get`) when the body is not an object at all. -/
theorem C4_amended (module_id : String) (body : Json) (store : Store)
    (hrej : importBodyRejected body = true) :
    (import_cards module_id body store).2 = store ∧
    (import_cards module_id body store).1.status =
      (if body.isObj = true then 400 else 500) := by
  cases body with
  | obj entries =>
    have harr : ((lookupKey entries "cards").getD Json.null).isArr = false := by
      simpa [importBodyRejected, dictGet] using hrej
    refine ⟨?_, ?_⟩ <;> simp [import_cards, dictGet, harr, Json.isObj]
  | null => exact ⟨rfl, rfl⟩
  | bool b => exact ⟨rfl, rfl⟩
  | num n => exact ⟨rfl, rfl⟩
  | str s => exact ⟨rfl, rfl⟩
  | arr xs => exact ⟨rfl, rfl⟩

theorem C4_amended_witness :
    importBodyRejected (Json.obj [("cards", Json.num 5)]) = true ∧
    (import_cards "mod1" (Json.obj [("cards", Json.num 5)])
        [Row.mk (Json.str "k") (Json.obj [])]).2 =
      [Row.mk (Json.str "k") (Json.obj [])] ∧
    (import_cards "mod1" (Json.obj [("cards", Json.num 5)])
        [Row.mk (Json.str "k") (Json.obj [])]).1.status = 400 := by
  refine ⟨by decide, (C4_amended "mod1" _ _ (by decide)).1, ?_⟩
  have h := (C4_amended "mod1" (Json.obj [("cards", Json.num 5)])
    [Row.mk (Json.str "k") (Json.obj [])] (by decide)).2
  simpa [Json.isObj] using h

/-- C10 (amended): on a list of records in which every dict holding both
keys also holds a dict under `data`, the transform succeeds and returns,
in order, the reshaped form of exactly the kept records, dropping the
rest; a kept record with a non-dict `data` instead raises (see the
counterexample). -/
theorem C10_amended (records : List Json)
    (hgood : ∀ r ∈ records, recordKeep r = true → (recordField r "data").isObj = true) :
    transform_from_supabase (Json.arr records) =
      Except.ok (records.filterMap
        (fun r => if recordKeep r = true then some (specReshape r) else none)) := by
  simp only [transform_from_supabase, pyIterate]
  induction records with
  | nil => rfl
  | cons r rest ih =>
    have ihr := ih (fun q hq => hgood q (List.mem_cons_of_mem r hq))
    by_cases hk : recordKeep r = true
    · have hobj := hgood r (List.mem_cons_self r rest) hk
      cases hdata : recordField r "data" with
      | obj es =>
        simp [transformLoop, hk, hdata, mergeInject, ihr, specReshape,
          List.filterMap_cons, Except.map]
      | null => rw [hdata] at hobj; simp [Json.isObj] at hobj
      | bool b => rw [hdata] at hobj; simp [Json.isObj] at hobj
      | num n => rw [hdata] at hobj; simp [Json.isObj] at hobj
      | str s => rw [hdata] at hobj; simp [Json.isObj] at hobj
      | arr xs => rw [hdata] at hobj; simp [Json.isObj] at hobj
    · simp [transformLoop, hk, ihr, List.filterMap_cons]

theorem C10_amended_witness :
    transform_from_supabase
        (Json.arr [Json.num 3,
          Json.obj [("cardid", Json.str "x"), ("data", Json.obj [("f", Json.num 1)])],
          Json.obj [("cardid", Json.str "y")]]) =
      Except.ok [Json.obj [("f", Json.num 1), ("cardid", Json.str "x")]] :=
  C10_amended
    [Json.num 3,
     Json.obj [("cardid", Json.str "x"), ("data", Json.obj [("f", Json.num 1)])],
     Json.obj [("cardid", Json.str "y")]]
    (by decide)

/-- Reshaping the representation of rows whose data are dicts succeeds
row by row and yields the reshaped rows in order. -/
theorem transformLoop_rowJson (rows : List Row)
    (hobj : ∀ r ∈ rows, (r.data).isObj = true) :
    transformLoop (rows.map rowJson) = Except.ok (rows.map reshapeRow) := by
  induction rows with
  | nil => rfl
  | cons r rest ih =>
    have hkeep : recordKeep (rowJson r) = true := rfl
    have hfd : recordField (rowJson r) "data" = r.data := rfl
    have hfc : recordField (rowJson r) "cardid" = r.cardid := rfl
    have ihr := ih (fun q hq => hobj q (List.mem_cons_of_mem r hq))
    have hr := hobj r (List.mem_cons_self r rest)
    cases hdata : r.data with
    | obj es =>
      simp only [List.map_cons, transformLoop, hkeep, eq_self_iff_true, if_true,
        hfd, hfc, hdata, mergeInject, ihr, Except.map, reshapeRow]
    | null => rw [hdata] at hr; simp [Json.isObj] at hr
    | bool b => rw [hdata] at hr; simp [Json.isObj] at hr
    | num n => rw [hdata] at hr; simp [Json.isObj] at hr
    | str s => rw [hdata] at hr; simp [Json.isObj] at hr
    | arr xs => rw [hdata] at hr; simp [Json.isObj] at hr

/-- C6: for a resolvable module and a dict payload, Update responds 404
exactly when no stored row matches the id, and otherwise responds 200
with `{success, card}` built from the first matched row. -/
theorem C6_update_found_or_404 (module_id card_id : String)
    (entries : List (String × Json)) (store : Store)
    (hmod : (MODULE_TO_TABLE module_id).isNone = false) :
    (store.filter (fun r => r.cardid == Json.str card_id) = [] →
      (update_card module_id card_id (Json.obj entries) store).1 =
        Response.mk (Json.obj [("error",
          Json.str "card not found or update blocked")]) 404) ∧
    (∀ r rest, store.filter (fun r => r.cardid == Json.str card_id) = r :: rest →
      (update_card module_id card_id (Json.obj entries) store).1 =
        Response.mk (Json.obj [("success", Json.bool true),
          ("card", Json.obj (setKey (removeKey entries "cardid") "cardid"
            r.cardid))]) 200) := by
  simp only [update_card, hmod, Bool.false_eq_true, if_false]
  constructor
  · intro hempty
    rw [hempty]
    rfl
  · intro r rest hmatch
    rw [hmatch]
    have hrows : ∀ q ∈ ((r :: rest).map (fun x => Row.mk x.cardid
        (Json.obj (removeKey entries "cardid")))), (q.data).isObj = true := by
      intro q hq
      obtain ⟨x, hx, hfx⟩ := List.mem_map.mp hq
      rw [← hfx]
      rfl
    have htrans := transformLoop_rowJson _ hrows
    simp only [List.map_cons] at htrans
    simp only [update_card_respond, transform_from_supabase, pyIterate,
      List.map_cons, pyFalsy, List.isEmpty_cons, Bool.false_eq_true, if_false]
    rw [htrans]
    rfl

theorem C6_witness :
    (update_card "mod1" "k" (Json.obj [("a", Json.num 1)])
        [Row.mk (Json.str "k") (Json.obj [("old", Json.num 0)])]).1 =
      Response.mk (Json.obj [("success", Json.bool true),
        ("card", Json.obj [("a", Json.num 1), ("cardid", Json.str "k")])]) 200 := by
  have h := (C6_update_found_or_404 "mod1" "k" [("a", Json.num 1)]
    [Row.mk (Json.str "k") (Json.obj [("old", Json.num 0)])] (by decide)).2
  exact h (Row.mk (Json.str "k") (Json.obj [("old", Json.num 0)])) [] (by decide)

/-- Rows present after a bulk upsert come from the prior store or from
the upserted batch. -/
theorem storeUpsertAll_mem (rows : List Row) (store : Store) :
    ∀ r ∈ storeUpsertAll store rows, r ∈ store ∨ r ∈ rows := by
  induction rows generalizing store with
  | nil => exact fun r hr => Or.inl hr
  | cons x xs ih =>
    intro r hr
    rcases ih (storeUpsertOne store x) r hr with h | h
    · unfold storeUpsertOne at h
      by_cases hc : store.any (fun y => y.cardid == x.cardid) = true
      · rw [if_pos hc] at h
        obtain ⟨y, hy, hfy⟩ := List.mem_map.mp h
        by_cases hyc : (y.cardid == x.cardid) = true
        · rw [if_pos hyc] at hfy
          exact Or.inr (hfy ▸ List.mem_cons_self x xs)
        · rw [if_neg hyc] at hfy
          exact Or.inl (hfy ▸ hy)
      · rw [if_neg hc] at h
        rcases List.mem_append.mp h with h | h
        · exact Or.inl h
        · rw [List.mem_singleton.mp h]
          exact Or.inr (List.mem_cons_self x xs)
    · exact Or.inr (List.mem_cons_of_mem x h)

/-- Every row built by the `data_to_insert` comprehension carries its
source card as `data` and the card's `cardid` value as id. -/
theorem rowsLoop_mem (cards : List Json) (rows : List Row)
    (h : rowsLoop cards = Except.ok rows) :
    ∀ r ∈ rows, ∃ c, dictGet c "cardid" = some r.cardid ∧ r.data = c := by
  induction cards generalizing rows with
  | nil =>
    have : rows = [] := by
      simpa [rowsLoop] using h.symm
    subst this
    intro r hr
    simp at hr
  | cons c cs ih =>
    rw [rowsLoop] at h
    cases hget : dictGet c "cardid" with
    | none => rw [hget] at h; simp at h
    | some cid =>
      rw [hget] at h
      cases hrec : rowsLoop cs with
      | error e => rw [hrec] at h; simp [Except.map] at h
      | ok rs =>
        rw [hrec] at h
        simp only [Except.map] at h
        have hrows : rows = Row.mk cid c :: rs := (Except.ok.inj h).symm
        subst hrows
        intro r hr
        rcases List.mem_cons.mp hr with hr | hr
        · exact ⟨c, by rw [hr]; exact hget, by rw [hr]⟩
        · exact ih rs hrec r hr

theorem add_card_rows (module_id : String) (body : Json) (store : Store) :
    ∀ r ∈ (add_card module_id body store).2,
      r ∈ store ∨ dataHasCardId r.data = true := by
  cases body with
  | obj entries =>
    simp only [add_card]
    by_cases hfal : pyFalsy ((lookupKey entries "cardid").getD Json.null) = true
    · simp only [hfal, eq_self_iff_true, if_true]
      by_cases hmod : (MODULE_TO_TABLE module_id).isNone = true
      · simp only [hmod, eq_self_iff_true, if_true]
        exact fun r hr => Or.inl hr
      · rw [Bool.not_eq_true] at hmod
        simp only [hmod, Bool.false_eq_true, if_false]
        cases hmax : maxNumberLoop module_id 0 (store.map (fun r => r.cardid)) with
        | error e => exact fun r hr => Or.inl hr
        | ok m =>
          unfold add_card_insert
          by_cases hconf : (store.any fun x =>
              x.cardid == Json.str (module_id ++ "_card_" ++ intRepr (m + 1))) = true
          · simp only [hconf, eq_self_iff_true, if_true]
            exact fun r hr => Or.inl hr
          · rw [Bool.not_eq_true] at hconf
            simp only [hconf, Bool.false_eq_true, if_false]
            intro r hr
            rcases List.mem_append.mp hr with h | h
            · exact Or.inl h
            · rw [List.mem_singleton.mp h]
              exact Or.inr (by
                simpa [dataHasCardId] using hasKey_setKey entries "cardid"
                  (Json.str (module_id ++ "_card_" ++ intRepr (m + 1))))
    · rw [Bool.not_eq_true] at hfal
      simp only [hfal, Bool.false_eq_true, if_false]
      by_cases hmod : (MODULE_TO_TABLE module_id).isNone = true
      · simp only [hmod, eq_self_iff_true, if_true]
        exact fun r hr => Or.inl hr
      · rw [Bool.not_eq_true] at hmod
        simp only [hmod, Bool.false_eq_true, if_false]
        unfold add_card_insert
        by_cases hconf : (store.any fun x =>
            x.cardid == (lookupKey entries "cardid").getD Json.null) = true
        · simp only [hconf, eq_self_iff_true, if_true]
          exact fun r hr => Or.inl hr
        · rw [Bool.not_eq_true] at hconf
          simp only [hconf, Bool.false_eq_true, if_false]
          intro r hr
          rcases List.mem_append.mp hr with h | h
          · exact Or.inl h
          · rw [List.mem_singleton.mp h]
            refine Or.inr ?_
            cases hlook : lookupKey entries "cardid" with
            | none => rw [hlook] at hfal; simp [pyFalsy] at hfal
            | some v => simp [dataHasCardId, hasKey, hlook]
  | null => exact fun r hr => Or.inl hr
  | bool b => exact fun r hr => Or.inl hr
  | num n => exact fun r hr => Or.inl hr
  | str s => exact fun r hr => Or.inl hr
  | arr xs => exact fun r hr => Or.inl hr

/-- C5: Update leaves every stored cardid unchanged, for any payload
(including one carrying a `cardid` field), and any row it rewrites holds
the payload stripped of its `cardid` key. -/
theorem C5_update_id_immutable (module_id card_id : String) (body : Json)
    (store : Store) :
    ((update_card module_id card_id body store).2).map (fun r => r.cardid) =
      store.map (fun r => r.cardid) ∧
    ∀ r ∈ (update_card module_id card_id body store).2,
      r ∈ store ∨
        ∃ entries, body = Json.obj entries ∧
          r.data = Json.obj (removeKey entries "cardid") ∧
          hasKey (removeKey entries "cardid") "cardid" = false :=
  update_card_frame module_id card_id body store

theorem update_card_rows (module_id card_id : String) (body : Json) (store : Store) :
    ∀ r ∈ (update_card module_id card_id body store).2,
      r ∈ store ∨ dataHasCardId r.data = false := by
  intro r hr
  rcases (update_card_frame module_id card_id body store).2 r hr with h | ⟨entries, hb, hd, hk⟩
  · exact Or.inl h
  · refine Or.inr ?_
    rw [hd]
    simpa [dataHasCardId] using hk

theorem cardsToRows_mem (cards : Json) (rows : List Row)
    (h : cardsToRows cards = Except.ok rows) :
    ∀ r ∈ rows, ∃ c, dictGet c "cardid" = some r.cardid ∧ r.data = c := by
  unfold cardsToRows at h
  cases hit : pyIterate cards with
  | error e => rw [hit] at h; simp at h
  | ok items => rw [hit] at h; exact rowsLoop_mem items rows h

theorem reset_cards_rows (module_id : String) (fixture : Option Json) (store : Store) :
    ∀ r ∈ (reset_cards module_id fixture store).2,
      r ∈ store ∨ ∃ c, dictGet c "cardid" = some r.cardid ∧ r.data = c := by
  unfold reset_cards
  by_cases hmod : (MODULE_TO_TABLE module_id).isNone = true
  · simp only [hmod, eq_self_iff_true, if_true]
    exact fun r hr => Or.inl hr
  · rw [Bool.not_eq_true] at hmod
    simp only [hmod, Bool.false_eq_true, if_false]
    cases fixture with
    | none => exact fun r hr => Or.inl (List.mem_of_mem_filter hr)
    | some fx =>
      dsimp only
      cases hrows : cardsToRows fx with
      | error e => exact fun r hr => Or.inl (List.mem_of_mem_filter hr)
      | ok rows =>
        by_cases hemp : rows.isEmpty = true
        · simp only [hemp, eq_self_iff_true, if_true]
          exact fun r hr => Or.inl (List.mem_of_mem_filter hr)
        · rw [Bool.not_eq_true] at hemp
          simp only [hemp, Bool.false_eq_true, if_false]
          intro r hr
          rcases storeUpsertAll_mem rows _ r hr with h | h
          · exact Or.inl (List.mem_of_mem_filter h)
          · exact Or.inr (cardsToRows_mem fx rows hrows r h)

theorem import_cards_rows (module_id : String) (body : Json) (store : Store) :
    ∀ r ∈ (import_cards module_id body store).2,
      r ∈ store ∨ ∃ c, dictGet c "cardid" = some r.cardid ∧ r.data = c := by
  unfold import_cards
  cases hget : dictGet body "cards" with
  | none => exact fun r hr => Or.inl hr
  | some cardsJson =>
    by_cases harr : cardsJson.isArr = true
    · simp only [harr, Bool.not_true, Bool.false_eq_true, if_false]
      by_cases hmod : (MODULE_TO_TABLE module_id).isNone = true
      · simp only [hmod, eq_self_iff_true, if_true]
        exact fun r hr => Or.inl hr
      · rw [Bool.not_eq_true] at hmod
        simp only [hmod, Bool.false_eq_true, if_false]
        cases hrows : cardsToRows cardsJson with
        | error e => exact fun r hr => Or.inl (List.mem_of_mem_filter hr)
        | ok rows =>
          by_cases hemp : rows.isEmpty = true
          · simp only [hemp, eq_self_iff_true, if_true]
            exact fun r hr => Or.inl (List.mem_of_mem_filter hr)
          · rw [Bool.not_eq_true] at hemp
            simp only [hemp, Bool.false_eq_true, if_false]
            intro r hr
            rcases storeUpsertAll_mem rows _ r hr with h | h
            · exact Or.inl (List.mem_of_mem_filter h)
            · exact Or.inr (cardsToRows_mem cardsJson rows hrows r h)
    · rw [Bool.not_eq_true] at harr
      have hneg : (!cardsJson.isArr) = true := by simp [harr]
      simp only [hneg, eq_self_iff_true, if_true]
      exact fun r hr => Or.inl hr

theorem initialize_data_rows (module_id : String) (fixture : Option Json) (store : Store) :
    ∀ r ∈ initialize_data module_id fixture store,
      r ∈ store ∨ ∃ c, dictGet c "cardid" = some r.cardid ∧ r.data = c := by
  unfold initialize_data
  by_cases hmod : (MODULE_TO_TABLE module_id).isNone = true
  · simp only [hmod, eq_self_iff_true, if_true]
    exact fun r hr => Or.inl hr
  · rw [Bool.not_eq_true] at hmod
    simp only [hmod, Bool.false_eq_true, if_false]
    by_cases hne : (!store.isEmpty) = true
    · simp only [hne, eq_self_iff_true, if_true]
      exact fun r hr => Or.inl hr
    · rw [Bool.not_eq_true] at hne
      simp only [hne, Bool.false_eq_true, if_false]
      cases fixture with
      | none => exact fun r hr => Or.inl hr
      | some fx =>
        dsimp only
        cases hrows : cardsToRows fx with
        | error e => exact fun r hr => Or.inl hr
        | ok rows =>
          by_cases hemp : rows.isEmpty = true
          · simp only [hemp, eq_self_iff_true, if_true]
            exact fun r hr => Or.inl hr
          · rw [Bool.not_eq_true] at hemp
            simp only [hemp, Bool.false_eq_true, if_false]
            intro r hr
            rcases storeUpsertAll_mem rows store r hr with h | h
            · exact Or.inl h
            · exact Or.inr (cardsToRows_mem fx rows hrows r h)

/-- C2 (amended): only Update strips `cardid` from what it writes as
`data`.  Rows written by Create always hold `cardid` inside `data`; rows
written by Update never do; rows written by Reset, Import or Seeding hold
the source card itself as `data`, so `cardid` occurs inside exactly when
the source card carries it. -/
theorem C2_amended (module_id card_id : String) (body : Json)
    (fixture : Option Json) (store : Store) :
    (∀ r ∈ (add_card module_id body store).2,
        r ∈ store ∨ dataHasCardId r.data = true) ∧
    (∀ r ∈ (update_card module_id card_id body store).2,
        r ∈ store ∨ dataHasCardId r.data = false) ∧
    (∀ r ∈ (reset_cards module_id fixture store).2,
        r ∈ store ∨ ∃ c, dictGet c "cardid" = some r.cardid ∧ r.data = c) ∧
    (∀ r ∈ (import_cards module_id body store).2,
        r ∈ store ∨ ∃ c, dictGet c "cardid" = some r.cardid ∧ r.data = c) ∧
    (∀ r ∈ initialize_data module_id fixture store,
        r ∈ store ∨ ∃ c, dictGet c "cardid" = some r.cardid ∧ r.data = c) :=
  ⟨add_card_rows module_id body store,
   update_card_rows module_id card_id body store,
   reset_cards_rows module_id fixture store,
   import_cards_rows module_id body store,
   initialize_data_rows module_id fixture store⟩

/-- C3 counterexample: a fixture file that is a valid JSON array of two
card objects sharing one id yields, after Reset and List, a single card
(the second entry, through upsert-on-id), not one listed card per fixture
entry. -/
theorem C3_counterexample :
    (get_all_cards "mod1"
      (reset_cards "mod1"
        (some (Json.arr
          [Json.obj [("cardid", Json.str "a"), ("front", Json.str "x")],
           Json.obj [("cardid", Json.str "a"), ("front", Json.str "y")]])) []).2) =
      Response.mk (Json.arr [Json.obj [("cardid", Json.str "a"),
        ("front", Json.str "y")]]) 200 ∧
    [Json.obj [("cardid", Json.str "a"), ("front", Json.str "x")],
     Json.obj [("cardid", Json.str "a"), ("front", Json.str "y")]].length = 2 := by
  refine ⟨by decide, rfl⟩

/-- Upserting rows whose ids are fresh for the store and pairwise distinct
appends them in order. -/
theorem storeUpsertAll_fresh (rows : List Row) (store : Store)
    (hdisj : ∀ r ∈ rows, store.any (fun x => x.cardid == r.cardid) = false)
    (hnodup : (rows.map (fun r => r.cardid)).Nodup) :
    storeUpsertAll store rows = store ++ rows := by
  induction rows generalizing store with
  | nil => simp [storeUpsertAll]
  | cons x xs ih =>
    have hx : store.any (fun y => y.cardid == x.cardid) = false :=
      hdisj x (List.mem_cons_self x xs)
    have hone : storeUpsertOne store x = store ++ [x] := by
      unfold storeUpsertOne
      rw [hx]
      simp
    simp only [List.map_cons, List.nodup_cons] at hnodup
    have hdisj2 : ∀ r ∈ xs, (store ++ [x]).any (fun y => y.cardid == r.cardid) = false := by
      intro r hr
      rw [List.any_append]
      have h1 : store.any (fun y => y.cardid == r.cardid) = false :=
        hdisj r (List.mem_cons_of_mem x hr)
      have h2 : (x.cardid == r.cardid) = false := by
        rw [beq_eq_false_iff_ne]
        intro hxr
        exact hnodup.1 (by rw [hxr]; exact List.mem_map_of_mem (fun r => r.cardid) hr)
      simp [h1, h2, List.any]
    have := ih (store ++ [x]) hdisj2 hnodup.2
    calc storeUpsertAll store (x :: xs)
        = storeUpsertAll (storeUpsertOne store x) xs := rfl
      _ = storeUpsertAll (store ++ [x]) xs := by rw [hone]
      _ = (store ++ [x]) ++ xs := this
      _ = store ++ (x :: xs) := by simp

/-- A well-formed fixture entry survives the store-and-reshape round
trip unchanged. -/
theorem reshapeRow_fixture (c : Json) (hok : fixtureCardOk c = true) :
    reshapeRow (Row.mk (cardIdOf c) c) = c := by
  cases c with
  | obj es =>
    simp only [fixtureCardOk, Bool.and_eq_true, decide_eq_true_eq] at hok
    obtain ⟨hnodup, hkey⟩ := hok
    cases hlook : lookupKey es "cardid" with
    | none => simp [hasKey, hlook] at hkey
    | some v =>
      simp only [reshapeRow, cardIdOf, hlook, Option.getD]
      rw [setKey_self es "cardid" v hnodup hlook]
  | null => simp [fixtureCardOk] at hok
  | bool b => simp [fixtureCardOk] at hok
  | num n => simp [fixtureCardOk] at hok
  | str s => simp [fixtureCardOk] at hok
  | arr xs => simp [fixtureCardOk] at hok

/-- `data_to_insert` built from an array of dicts pairs each card with the
value of its `cardid` key. -/
theorem cardsToRows_objs (cards : List Json)
    (hobj : ∀ c ∈ cards, c.isObj = true) :
    cardsToRows (Json.arr cards) =
      Except.ok (cards.map (fun c => Row.mk (cardIdOf c) c)) := by
  simp only [cardsToRows, pyIterate]
  induction cards with
  | nil => rfl
  | cons c cs ih =>
    have hc := hobj c (List.mem_cons_self c cs)
    have ihr := ih (fun q hq => hobj q (List.mem_cons_of_mem c hq))
    cases c with
    | obj es =>
      simp only [rowsLoop, dictGet, ihr, Except.map, List.map_cons, cardIdOf]
    | null => simp [Json.isObj] at hc
    | bool b => simp [Json.isObj] at hc
    | num n => simp [Json.isObj] at hc
    | str s => simp [Json.isObj] at hc
    | arr xs => simp [Json.isObj] at hc

/-- C3 (amended): for a resolvable module, a prior store without
null-cardid rows, and a fixture array of well-formed card objects with
pairwise-distinct cardid values, Reset reports 200 with the fixture count
and a subsequent List returns exactly the fixture cards, in order. -/
theorem C3_amended (module_id : String) (cards : List Json) (store : Store)
    (hmod : (MODULE_TO_TABLE module_id).isNone = false)
    (hprior : ∀ r ∈ store, r.cardid ≠ Json.null)
    (hok : ∀ c ∈ cards, fixtureCardOk c = true)
    (hids : (cards.map cardIdOf).Nodup) :
    (reset_cards module_id (some (Json.arr cards)) store).1 =
      Response.mk (Json.obj [("success", Json.bool true),
        ("message", Json.str "module reset"),
        ("count", Json.num cards.length)]) 200 ∧
    get_all_cards module_id
        (reset_cards module_id (some (Json.arr cards)) store).2 =
      Response.mk (Json.arr cards) 200 := by
  have hobj : ∀ c ∈ cards, c.isObj = true := by
    intro c hc
    have h := hok c hc
    cases c with
    | obj es => rfl
    | null => simp [fixtureCardOk] at h
    | bool b => simp [fixtureCardOk] at h
    | num n => simp [fixtureCardOk] at h
    | str s => simp [fixtureCardOk] at h
    | arr xs => simp [fixtureCardOk] at h
  have hwipe : store.filter (fun r => r.cardid == Json.null) = [] := by
    rw [List.filter_eq_nil_iff]
    intro r hr
    simpa using hprior r hr
  have hrows := cardsToRows_objs cards hobj
  have hstore2 :
      (reset_cards module_id (some (Json.arr cards)) store).2 =
        cards.map (fun c => Row.mk (cardIdOf c) c) := by
    unfold reset_cards
    simp only [hmod, Bool.false_eq_true, if_false]
    rw [hrows]
    dsimp only
    rw [hwipe]
    by_cases hemp : (cards.map (fun c => Row.mk (cardIdOf c) c)).isEmpty = true
    · rw [if_pos hemp]
      rw [List.isEmpty_iff] at hemp
      rw [hemp]
    · rw [if_neg hemp]
      rw [storeUpsertAll_fresh _ [] (fun r hr => rfl) ?nodup]
      · rfl
      case nodup =>
        rw [List.map_map]
        simpa [Function.comp] using hids
  have hresp :
      (reset_cards module_id (some (Json.arr cards)) store).1 =
        Response.mk (Json.obj [("success", Json.bool true),
          ("message", Json.str "module reset"),
          ("count", Json.num cards.length)]) 200 := by
    unfold reset_cards
    simp only [hmod, Bool.false_eq_true, if_false]
    rw [hrows]
    dsimp only
    rw [List.length_map]
  refine ⟨hresp, ?_⟩
  rw [hstore2]
  have hdata : ∀ r ∈ cards.map (fun c => Row.mk (cardIdOf c) c),
      (r.data).isObj = true := by
    intro r hr
    obtain ⟨c, hc, hfc⟩ := List.mem_map.mp hr
    rw [← hfc]
    exact hobj c hc
  have htrans := transformLoop_rowJson _ hdata
  unfold get_all_cards
  simp only [hmod, Bool.false_eq_true, if_false, transform_from_supabase, pyIterate]
  rw [htrans]
  have hcards : (cards.map (fun c => Row.mk (cardIdOf c) c)).map reshapeRow = cards := by
    rw [List.map_map]
    have : ∀ c ∈ cards, (reshapeRow ∘ fun c => Row.mk (cardIdOf c) c) c = id c := by
      intro c hc
      simp only [Function.comp, id]
      exact reshapeRow_fixture c (hok c hc)
    rw [List.map_congr_left this, List.map_id]
  rw [hcards]

theorem C3_amended_witness :
    get_all_cards "mod1"
        (reset_cards "mod1"
          (some (Json.arr
            [Json.obj [("cardid", Json.str "a"), ("front", Json.str "x")],
             Json.obj [("cardid", Json.str "b")]])) []).2 =
      Response.mk (Json.arr
        [Json.obj [("cardid", Json.str "a"), ("front", Json.str "x")],
         Json.obj [("cardid", Json.str "b")]]) 200 :=
  (C3_amended "mod1"
    [Json.obj [("cardid", Json.str "a"), ("front", Json.str "x")],
     Json.obj [("cardid", Json.str "b")]] []
    (by decide) (by decide) (by decide) (by decide)).2

theorem pyDigitVal_digitOf (k : Nat) (h : k < 10) :
    pyDigitVal (digitOf k) = some k := by
  interval_cases k <;> decide

theorem digitOf_not_space (k : Nat) (h : k < 10) :
    pyIsSpace (digitOf k) = false := by
  interval_cases k <;> decide

theorem digitOf_not_us (k : Nat) (h : k < 10) : digitOf k ≠ '_' := by
  interval_cases k <;> decide

theorem digitOf_not_sign (k : Nat) (h : k < 10) :
    digitOf k ≠ '+' ∧ digitOf k ≠ '-' := by
  interval_cases k <;> exact ⟨by decide, by decide⟩

theorem decValuePy_append (ds : List Char) (c : Char) :
    decValuePy (ds ++ [c]) = 10 * decValuePy ds + (pyDigitVal c).getD 0 := by
  simp [decValuePy, List.foldl_append]

theorem natReprAux_spec (fuel : Nat) : ∀ n, n ≤ fuel →
    (∀ c ∈ natReprAux fuel n, ∃ k, k < 10 ∧ c = digitOf k) ∧
    natReprAux fuel n ≠ [] ∧
    decValuePy (natReprAux fuel n) = n := by
  induction fuel with
  | zero =>
    intro n hn
    interval_cases n
    refine ⟨?_, by decide, by decide⟩
    intro c hc
    exact ⟨0, by omega, by simpa [natReprAux] using hc⟩
  | succ fuel ih =>
    intro n hn
    by_cases h10 : n < 10
    · rw [natReprAux, if_pos h10]
      refine ⟨?_, by simp, ?_⟩
      · intro c hc
        exact ⟨n, h10, by simpa using hc⟩
      · simp [decValuePy, pyDigitVal_digitOf n h10]
    · rw [natReprAux, if_neg h10]
      have hrec := ih (n / 10) (by omega)
      refine ⟨?_, by simp, ?_⟩
      · intro c hc
        rcases List.mem_append.mp hc with hc | hc
        · exact hrec.1 c hc
        · exact ⟨n % 10, by omega, by simpa using hc⟩
      · rw [decValuePy_append, hrec.2.2, pyDigitVal_digitOf (n % 10) (by omega)]
        simp only [Option.getD_some]
        omega

theorem natRepr_spec (n : Nat) :
    (∀ c ∈ natRepr n, ∃ k, k < 10 ∧ c = digitOf k) ∧ natRepr n ≠ [] ∧
    decValuePy (natRepr n) = n :=
  natReprAux_spec n n le_rfl

theorem dropWhile_of_none {α : Type} (p : α → Bool) (l : List α)
    (h : ∀ c ∈ l, p c = false) : l.dropWhile p = l := by
  cases l with
  | nil => rfl
  | cons c rest =>
    rw [List.dropWhile_cons, h c (List.mem_cons_self c rest)]
    simp

theorem parseIntPy_digits (ds : List Char) (hne : ds ≠ [])
    (hd : ∀ c ∈ ds, ∃ k, k < 10 ∧ c = digitOf k) :
    parseIntPy ds = some ((decValuePy ds : Nat) : Int) := by
  have hnospace : ∀ c ∈ ds, pyIsSpace c = false := by
    intro c hc
    obtain ⟨k, hk, rfl⟩ := hd c hc
    exact digitOf_not_space k hk
  unfold parseIntPy
  rw [dropWhile_of_none _ ds hnospace]
  rw [dropWhile_of_none _ ds.reverse
    (fun c hc => hnospace c (List.mem_reverse.mp hc))]
  rw [List.reverse_reverse]
  cases ds with
  | nil => exact absurd rfl hne
  | cons c rest =>
    obtain ⟨k, hk, hck⟩ := hd c (List.mem_cons_self c rest)
    have hplus : c ≠ '+' := by rw [hck]; exact (digitOf_not_sign k hk).1
    have hminus : c ≠ '-' := by rw [hck]; exact (digitOf_not_sign k hk).2
    rw [parseSigned.eq_def]
    split
    · rename_i heq
      exact absurd (List.head_eq_of_cons_eq heq.symm).symm hplus
    · rename_i heq
      exact absurd (List.head_eq_of_cons_eq heq.symm).symm hminus
    · have hcond : c :: rest ≠ [] ∧
          ((c :: rest).all fun ch => (pyDigitVal ch).isSome) = true := by
        refine ⟨List.cons_ne_nil c rest, ?_⟩
        rw [List.all_eq_true]
        intro x hx
        obtain ⟨k2, hk2, hx2⟩ := hd x hx
        rw [hx2, pyDigitVal_digitOf k2 hk2]
        rfl
      rw [parseDigits, if_pos hcond]

theorem splitOnUS_ne_nil (l : List Char) : splitOnUS l ≠ [] := by
  cases l with
  | nil => simp [splitOnUS]
  | cons c rest =>
    rw [splitOnUS]
    by_cases hc : c = '_'
    · rw [if_pos hc]; simp
    · rw [if_neg hc]
      cases h : splitOnUS rest <;> simp

theorem splitOnUS_usfree (l : List Char) (h : ∀ c ∈ l, c ≠ '_') :
    splitOnUS l = [l] := by
  induction l with
  | nil => rfl
  | cons c rest ih =>
    rw [splitOnUS, if_neg (h c (List.mem_cons_self c rest))]
    rw [ih (fun d hd => h d (List.mem_cons_of_mem c hd))]

theorem splitOnUS_append (a b : List Char) (ha : ∀ c ∈ a, c ≠ '_') :
    splitOnUS (a ++ '_' :: b) = a :: splitOnUS b := by
  induction a with
  | nil => simp [splitOnUS]
  | cons c a ih =>
    rw [List.cons_append, splitOnUS, if_neg (ha c (List.mem_cons_self c a))]
    rw [ih (fun d hd => ha d (List.mem_cons_of_mem c hd))]

theorem lastSegment_synth (modCs ds : List Char)
    (hmod : ∀ c ∈ modCs, c ≠ '_') (hds : ∀ c ∈ ds, c ≠ '_') :
    (splitOnUS (modCs ++ '_' :: 'c' :: 'a' :: 'r' :: 'd' :: '_' :: ds)).getLastD []
      = ds := by
  rw [splitOnUS_append modCs _ hmod]
  rw [show ('c' :: 'a' :: 'r' :: 'd' :: '_' :: ds : List Char) =
    ['c', 'a', 'r', 'd'] ++ '_' :: ds from rfl]
  rw [splitOnUS_append _ ds (by decide)]
  rw [splitOnUS_usfree ds hds]
  rfl

theorem isPrefixOf_append (a b : List Char) : a.isPrefixOf (a ++ b) = true := by
  induction a with
  | nil => simp [List.isPrefixOf]
  | cons c a ih => simp [List.isPrefixOf, ih]

theorem maxNumberLoop_ge (module_id : String) :
    ∀ (ids : List Json) (acc m : Int),
      maxNumberLoop module_id acc ids = Except.ok m →
      acc ≤ m ∧
      ∀ s n, Json.str s ∈ ids →
        pyStartsWith s (module_id ++ "_card_") = true →
        parseIntPy (lastSegment s) = some n → n ≤ m := by
  intro ids
  induction ids with
  | nil =>
    intro acc m h
    have hacc : acc = m := by simpa [maxNumberLoop] using h
    subst hacc
    exact ⟨le_refl acc, fun s n hs _ _ => absurd hs (List.not_mem_nil _)⟩
  | cons id rest ih =>
    intro acc m h
    cases id with
    | str s0 =>
      rw [maxNumberLoop] at h
      by_cases hpre : pyStartsWith s0 (module_id ++ "_card_") = true
      · rw [if_pos hpre] at h
        cases hp : parseIntPy (lastSegment s0) with
        | some n0 =>
          rw [hp] at h
          obtain ⟨hmono, hmem⟩ := ih (max acc n0) m h
          refine ⟨le_trans (le_max_left acc n0) hmono, ?_⟩
          intro s n hs hpre2 hparse
          rcases List.mem_cons.mp hs with hs | hs
          · have hss : s = s0 := Json.str.inj hs
            subst hss
            rw [hparse] at hp
            have hn : n = n0 := Option.some.inj hp
            subst hn
            exact le_trans (le_max_right acc n) hmono
          · exact hmem s n hs hpre2 hparse
        | none =>
          rw [hp] at h
          obtain ⟨hmono, hmem⟩ := ih acc m h
          refine ⟨hmono, ?_⟩
          intro s n hs hpre2 hparse
          rcases List.mem_cons.mp hs with hs | hs
          · have hss : s = s0 := Json.str.inj hs
            subst hss
            rw [hparse] at hp
            exact absurd hp (by simp)
          · exact hmem s n hs hpre2 hparse
      · rw [if_neg hpre] at h
        obtain ⟨hmono, hmem⟩ := ih acc m h
        refine ⟨hmono, ?_⟩
        intro s n hs hpre2 hparse
        rcases List.mem_cons.mp hs with hs | hs
        · have hss : s = s0 := Json.str.inj hs
          subst hss
          exact absurd hpre2 hpre
        · exact hmem s n hs hpre2 hparse
    | null =>
      rw [maxNumberLoop] at h
      · exact absurd h (by simp)
      · intro s hs
        exact Json.noConfusion hs
    | bool b =>
      rw [maxNumberLoop] at h
      · exact absurd h (by simp)
      · intro s hs
        exact Json.noConfusion hs
    | num n =>
      rw [maxNumberLoop] at h
      · exact absurd h (by simp)
      · intro s hs
        exact Json.noConfusion hs
    | arr xs =>
      rw [maxNumberLoop] at h
      · exact absurd h (by simp)
      · intro s hs
        exact Json.noConfusion hs
    | obj es =>
      rw [maxNumberLoop] at h
      · exact absurd h (by simp)
      · intro s hs
        exact Json.noConfusion hs

theorem resolvable_module_usfree (module_id : String)
    (hmod : (MODULE_TO_TABLE module_id).isNone = false) :
    ∀ c ∈ module_id.data, c ≠ '_' := by
  rw [ MODULE_TO_TABLE.eq_def] at hmod
  split at hmod
  · decide
  · decide
  · simp at hmod

theorem synth_id_fresh (module_id : String) (store : Store) (m : Int)
    (husmod : ∀ c ∈ module_id.data, c ≠ '_')
    (hm : maxNumberLoop module_id 0 (store.map (fun r => r.cardid)) = Except.ok m) :
    (store.any fun x =>
      x.cardid == Json.str (module_id ++ "_card_" ++ intRepr (m + 1))) = false := by
  obtain ⟨h0, hub⟩ := maxNumberLoop_ge module_id _ 0 m hm
  have hrepr : intRepr (m + 1) = String.mk (natRepr (m + 1).natAbs) := by
    rw [intRepr, if_neg (by omega)]
  obtain ⟨hall, hne, hval⟩ := natRepr_spec (m + 1).natAbs
  have hdigus : ∀ c ∈ natRepr (m + 1).natAbs, c ≠ '_' := by
    intro c hc
    obtain ⟨k, hk, rfl⟩ := hall c hc
    exact digitOf_not_us k hk
  by_contra hany
  rw [← ne_eq, Bool.ne_false_iff] at hany
  obtain ⟨x, hx, hbeq⟩ := List.any_eq_true.mp hany
  have hxid : x.cardid = Json.str (module_id ++ "_card_" ++ intRepr (m + 1)) :=
    eq_of_beq hbeq
  have hmem : Json.str (module_id ++ "_card_" ++ intRepr (m + 1)) ∈
      store.map (fun r => r.cardid) := by
    rw [← hxid]
    exact List.mem_map_of_mem (fun r => r.cardid) hx
  have hpre : pyStartsWith (module_id ++ "_card_" ++ intRepr (m + 1))
      (module_id ++ "_card_") = true := by
    unfold pyStartsWith
    rw [String.data_append]
    exact isPrefixOf_append _ _
  have hdata : (module_id ++ "_card_" ++ intRepr (m + 1)).data =
      module_id.data ++ '_' :: 'c' :: 'a' :: 'r' :: 'd' :: '_' ::
        natRepr (m + 1).natAbs := by
    rw [String.data_append, String.data_append, hrepr, List.append_assoc]
    rfl
  have hlast : lastSegment (module_id ++ "_card_" ++ intRepr (m + 1)) =
      natRepr (m + 1).natAbs := by
    unfold lastSegment
    rw [hdata]
    exact lastSegment_synth module_id.data _ husmod hdigus
  have hparse : parseIntPy (lastSegment (module_id ++ "_card_" ++ intRepr (m + 1))) =
      some (m + 1) := by
    rw [hlast, parseIntPy_digits _ hne hall, hval]
    congr 1
    omega
  have := hub _ (m + 1) hmem hpre hparse
  omega

/-- C1 (amended): for a resolvable module and a dict body whose cardid is
absent or falsy (the code's `if not card_id:` test), Create assigns the
id `{module}_card_{N}` where N is one greater than the maximum integer
parsed from the final underscore segment of the existing ids that start
with `{module}_card_` (default 0, as computed by the scanning loop),
stores the row, and responds 201. -/
theorem C1_amended (module_id : String) (entries : List (String × Json))
    (store : Store) (m : Int)
    (hmod : (MODULE_TO_TABLE module_id).isNone = false)
    (hfal : pyFalsy ((lookupKey entries "cardid").getD Json.null) = true)
    (hm : maxNumberLoop module_id 0 (store.map (fun r => r.cardid)) = Except.ok m) :
    (add_card module_id (Json.obj entries) store).1.status = 201 ∧
    (add_card module_id (Json.obj entries) store).2 =
      store ++ [Row.mk (Json.str (module_id ++ "_card_" ++ intRepr (m + 1)))
        (Json.obj (setKey entries "cardid"
          (Json.str (module_id ++ "_card_" ++ intRepr (m + 1)))))] := by
  have husmod := resolvable_module_usfree module_id hmod
  have hfresh := synth_id_fresh module_id store m husmod hm
  simp only [add_card, hfal, eq_self_iff_true, if_true, hmod, Bool.false_eq_true,
    if_false, hm]
  unfold add_card_insert
  simp only [hfresh, Bool.false_eq_true, if_false]
  exact ⟨rfl, trivial⟩

theorem C1_amended_witness :
    (add_card "mod1"
        (Json.obj [("cardid", Json.str ""), ("front", Json.str "hello")])
        [Row.mk (Json.str "mod1_card_1") (Json.obj []),
         Row.mk (Json.str "mod1_card_3") (Json.obj [])]).2 =
      [Row.mk (Json.str "mod1_card_1") (Json.obj []),
       Row.mk (Json.str "mod1_card_3") (Json.obj []),
       Row.mk (Json.str "mod1_card_4")
         (Json.obj [("cardid", Json.str "mod1_card_4"),
           ("front", Json.str "hello")])] :=
  (C1_amended "mod1" [("cardid", Json.str ""), ("front", Json.str "hello")]
    [Row.mk (Json.str "mod1_card_1") (Json.obj []),
     Row.mk (Json.str "mod1_card_3") (Json.obj [])] 3 rfl rfl rfl).2
